import Mathlib

/-!
Verification development for the TokenLearner Vision-Transformer notebook.

The source program builds a mini ViT for CIFAR-10: images are resized and
augmented, cut into 6x6 patches by a strided valid convolution, projected to
width 128, given learned positional embeddings, passed through 4 transformer
blocks, with a TokenLearner module inserted after the block at index
NUM_LAYERS // 2 that reduces the 64 spatial tokens to NUM_TOKENS = 4 learned
summary tokens, followed by layer norm, global average pooling and a softmax
head.

Two embeddings of the program are given:

* a shape-level semantics (computable, over `Nat`), mirroring the static shape
  inference Keras performs while the functional-API graph is built
  (`create_vit_classifier`); shape mismatches surface as `none`, matching the
  `ValueError` Keras raises at model-build time;
* a value-level semantics over `ℝ`, treating the float tensor program as a
  real-number program; tensors are total functions on `Fin`-indexed shapes, so
  shape bookkeeping is carried in the types.

Learned parameters (conv kernels, embedding tables, dense weights) are taken
as explicit arguments, since the program treats them as mutable state owned by
the optimizer; every theorem quantifies over them.
-/

/-! ## Hyperparameters (the notebook's configuration cell) -/

/-- INPUT_SHAPE = (32, 32, 3): height and width of a raw CIFAR-10 image. -/
abbrev INPUT_SIZE : Nat := 32

/-- INPUT_SHAPE = (32, 32, 3): channel count of a raw input image. -/
abbrev INPUT_CHANNELS : Nat := 3

/-- NUM_CLASSES = 10. -/
abbrev NUM_CLASSES : Nat := 10

/-- IMAGE_SIZE = 48: inputs are resized/cropped to this size. -/
abbrev IMAGE_SIZE : Nat := 48

/-- PATCH_SIZE = 6: side of the patches extracted from the input images. -/
abbrev PATCH_SIZE : Nat := 6

/-- NUM_PATCHES = (IMAGE_SIZE // PATCH_SIZE) ** 2. -/
abbrev NUM_PATCHES : Nat := (IMAGE_SIZE / PATCH_SIZE) ^ 2

/-- PROJECTION_DIM = 128: the embedding width carried between blocks. -/
abbrev PROJECTION_DIM : Nat := 128

/-- NUM_HEADS = 4. -/
abbrev NUM_HEADS : Nat := 4

/-- NUM_LAYERS = 4. -/
abbrev NUM_LAYERS : Nat := 4

/-- MLP_UNITS = [PROJECTION_DIM * 2, PROJECTION_DIM]: widths of the two dense
layers of the transformer feed-forward block. -/
abbrev MLP_UNITS : List Nat := [PROJECTION_DIM * 2, PROJECTION_DIM]

/-- NUM_TOKENS = 4: number of summary tokens the TokenLearner emits. -/
abbrev NUM_TOKENS : Nat := 4

/-- LAYER_NORM_EPS = 1e-6. -/
noncomputable def LAYER_NORM_EPS : ℝ := 1 / 1000000

/-- DROPOUT_RATE: the literal 0.1 used by every Dropout in the notebook. -/
noncomputable def DROPOUT_RATE : ℝ := 1 / 10

/-- TRANSFORMER_KEY_DIM: the `key_dim` argument the notebook passes to
`layers.MultiHeadAttention` inside `transformer`; the source passes
`key_dim=PROJECTION_DIM` (the full embedding width), so each attention head
has query/key width PROJECTION_DIM. -/
abbrev TRANSFORMER_KEY_DIM : Nat := PROJECTION_DIM

/-! ## Shape-level semantics of the model build

Keras builds the functional graph with fully known static shapes, so every
shape constraint below is checked when `create_vit_classifier` runs, before
any training step.  A batch dimension is implicit (it is `None` in Keras and
never constrained by the layers used here); a sequence shape is the pair
(token count, width), an image shape the triple (height, width, channels). -/

/-- Output length of one spatial dimension of `Conv2D` with
`padding="VALID"`: defined only when the kernel fits inside the input, in
which case it is `(n - k) / s + 1` (integer division: a partial window at the
edge is silently dropped). -/
def convValidDim (n k s : Nat) : Option Nat :=
  if 0 < s ∧ k ≤ n then some ((n - k) / s + 1) else none

/-- Shape of the patch-projection stage of `create_vit_classifier`: a strided
valid `Conv2D` with `kernel_size=(P, P)`, `strides=(P, P)` and `D` filters,
followed by `Reshape((h * w, D))`.  Returns the resulting sequence shape. -/
def patchStage (H W P D : Nat) : Option (Nat × Nat) :=
  (convValidDim H P P).bind fun h =>
    (convValidDim W P P).map fun w => (h * w, D)

/-- Broadcast of one dimension in a Keras elementwise merge: the dimensions
must agree, or one of them must be 1. -/
def bcastDim (a b : Nat) : Option Nat :=
  if a = b then some a
  else if a = 1 then some b
  else if b = 1 then some a
  else none

/-- Output shape of `layers.Add` on two sequence shapes (broadcast per
dimension; `none` is the build-time ValueError for incompatible shapes). -/
def addShape (a b : Nat × Nat) : Option (Nat × Nat) :=
  (bcastDim a.1 b.1).bind fun n =>
    (bcastDim a.2 b.2).map fun d => (n, d)

/-- LayerNormalization preserves the shape. -/
def lnShape (s : Nat × Nat) : Nat × Nat := s

/-- Output shape of `layers.MultiHeadAttention(...)(q, v)`: with no explicit
`output_shape`, the output has the query's shape (last dim restored to the
query width by the final projection). -/
def mhaShape (q v : Nat × Nat) : Nat × Nat := q

/-- Shape of `mlp(x, dropout_rate, hidden_units)`: each `Dense(units)` layer
replaces the last dimension by `units`; dropout preserves shape. -/
def mlpShape (units : List Nat) (s : Nat × Nat) : Nat × Nat :=
  units.foldl (fun t u => (t.1, u)) s

/-- Shape semantics of `transformer(encoded_patches)`: layer norm,
self-attention, residual add, layer norm, `mlp` with `MLP_UNITS`, residual
add. -/
def transformerShape (s : Nat × Nat) : Option (Nat × Nat) :=
  let x1 := lnShape s
  let attn := mhaShape x1 x1
  (addShape attn s).bind fun x2 =>
    let x3 := lnShape x2
    let x4 := mlpShape MLP_UNITS x3
    addShape x4 x2

/-- Helper for `intSqrt`: the largest `j ≤ m` with `j * j ≤ n`. -/
def isqrtAux (n : Nat) : Nat → Nat
  | 0 => 0
  | m + 1 => if (m + 1) * (m + 1) ≤ n then m + 1 else isqrtAux n m

/-- Integer square root (structurally recursive; proved equal to `Nat.sqrt`
below), modelling the truncation `int(math.sqrt(hh))` of the source. -/
def intSqrt (n : Nat) : Nat := isqrtAux n n

/-- Shape of the sequence-to-grid conversion at the TokenLearner insertion
point: `h = int(math.sqrt(hh))` then `Reshape((h, h, c))`.  Keras `Reshape`
checks at build time that the total element count is preserved, so the
conversion fails (build-time ValueError) exactly when `h * h * c ≠ n * c`. -/
def seqToGridShape (n c : Nat) : Option (Nat × Nat × Nat) :=
  let h := intSqrt n
  if h * h * c = n * c then some (h, h, c) else none

/-- Output shape of `token_learner` on a spatial grid: always `K` tokens of
the grid's channel width, whatever the spatial size. -/
def tokenLearnerShape (K : Nat) (g : Nat × Nat × Nat) : Nat × Nat :=
  (K, g.2.2)

/-- One iteration of the block loop in `create_vit_classifier`: a transformer
block, then, when `use_token_learner` holds and the index equals
`NUM_LAYERS // 2`, the sequence-to-grid conversion followed by
`token_learner`. -/
def blockStep (useTL : Bool) (K : Nat) (i : Nat) (s : Nat × Nat) :
    Option (Nat × Nat) :=
  (transformerShape s).bind fun t =>
    if useTL ∧ i = NUM_LAYERS / 2 then
      (seqToGridShape t.1 t.2).map fun g => tokenLearnerShape K g
    else
      some t

/-- Sequence shape after the block-loop iterations `0 .. i` starting from
sequence shape `s0`. -/
def afterBlock (useTL : Bool) (K : Nat) (s0 : Nat × Nat) : Nat → Option (Nat × Nat)
  | 0 => blockStep useTL K 0 s0
  | i + 1 => (afterBlock useTL K s0 i).bind (blockStep useTL K (i + 1))

/-- Shape of the augmentation pipeline `data_augmentation`: `Rescaling`
preserves shape, `Resizing` sets the spatial size to
(INPUT_SIZE + 20, INPUT_SIZE + 20), `RandomCrop` sets it to
(IMAGE_SIZE, IMAGE_SIZE), `RandomFlip` preserves shape. -/
def augmentShape (s : Nat × Nat × Nat) : Nat × Nat × Nat :=
  (IMAGE_SIZE, IMAGE_SIZE, s.2.2)

/-- Shape of `position_embedding`: the learned table has shape
`(num_patches, projection_dim)` and is broadcast-added to the projected
patches. -/
def positionStage (numPatches D : Nat) (s : Nat × Nat) : Option (Nat × Nat) :=
  addShape s (numPatches, D)

/-- Sequence shape entering the block loop of `create_vit_classifier`:
augmentation, patch projection, positional embedding, dropout. -/
def vitSeq0 : Option (Nat × Nat) :=
  let a := augmentShape (INPUT_SIZE, INPUT_SIZE, INPUT_CHANNELS)
  (patchStage a.1 a.2.1 PATCH_SIZE PROJECTION_DIM).bind fun s =>
    positionStage NUM_PATCHES PROJECTION_DIM s

/-- Sequence shape after block-loop iteration `i` of the full model build
(with the TokenLearner enabled, as in `create_vit_classifier()`'s default). -/
def vitAfterBlock (i : Nat) : Option (Nat × Nat) :=
  vitSeq0.bind fun s0 => afterBlock true NUM_TOKENS s0 i

/-- Width left by `GlobalAvgPool1D`: the token axis is averaged away. -/
def poolLen (s : Nat × Nat) : Nat := s.2

/-- Output width of a `Dense(units)` layer. -/
def denseLen (units inWidth : Nat) : Nat := units

/-- Length of the final classifier output: layer norm (shape preserved),
`GlobalAvgPool1D` (drops the token axis), `Dense(NUM_CLASSES)`. -/
def headLen (s : Nat × Nat) : Nat := denseLen NUM_CLASSES (poolLen s)

/-- Output length of the fully built model. -/
def vitFinalLen : Option Nat :=
  (vitAfterBlock (NUM_LAYERS - 1)).map headLen

/-! ## Value-level semantics

Float tensors are idealized as real-number tensors; a tensor of shape
(n, d) is a total function `Fin n → Fin d → ℝ`, so the shape bookkeeping of
the program is carried by the types.  The batch axis, along which every layer
of the program acts pointwise, is an outer `Fin B →`. -/

/-- Sequence tensor of `n` tokens of width `d` (one batch element). -/
def Mat (n d : Nat) : Type := Fin n → Fin d → ℝ

/-- Image tensor of spatial size `h × w` with `c` channels (one batch
element). -/
def Img (h w c : Nat) : Type := Fin h → Fin w → Fin c → ℝ

/-- Sigmoid, the saturating activation of the last TokenLearner conv
(`activation="sigmoid"`). -/
noncomputable def sigmoid (x : ℝ) : ℝ := 1 / (1 + Real.exp (-x))

/-- Standard normal cumulative distribution function. -/
noncomputable def stdGaussCdf (x : ℝ) : ℝ :=
  ((ProbabilityTheory.gaussianReal 0 1) (Set.Iic x)).toReal

/-- Exact (erf-based) GELU, the semantics of `tf.nn.gelu` with its default
`approximate=False`: `gelu x = x * Φ(x)`. -/
noncomputable def gelu (x : ℝ) : ℝ := x * stdGaussCdf x

/-- Softmax over one axis. -/
noncomputable def softmax {n : Nat} (v : Fin n → ℝ) : Fin n → ℝ :=
  fun i => Real.exp (v i) / ∑ j, Real.exp (v j)

/-- Keras `LayerNormalization` (default `axis=-1`) on one feature vector:
normalize by mean and variance of the last axis, with epsilon inside the
square root, then scale by `gamma` and shift by `beta`. -/
noncomputable def layerNormVec {d : Nat} (gamma beta : Fin d → ℝ)
    (v : Fin d → ℝ) : Fin d → ℝ :=
  let m : ℝ := (∑ c, v c) / d
  let var : ℝ := (∑ c, (v c - m) ^ 2) / d
  fun c => gamma c * ((v c - m) / Real.sqrt (var + LAYER_NORM_EPS)) + beta c

/-- LayerNormalization applied over the channel axis of an image tensor. -/
noncomputable def layerNormImg {h w c : Nat} (gamma beta : Fin c → ℝ)
    (x : Img h w c) : Img h w c :=
  fun i j => layerNormVec gamma beta (x i j)

/-- LayerNormalization applied over the width axis of a sequence tensor. -/
noncomputable def layerNormSeq {n d : Nat} (gamma beta : Fin d → ℝ)
    (x : Mat n d) : Mat n d :=
  fun i => layerNormVec gamma beta (x i)

/-- Zero-padded read of an image tensor at integer coordinates, the padding
behaviour of `padding="same"` convolution. -/
def padGet {h w c : Nat} (x : Img h w c) (i j : Int) (ch : Fin c) : ℝ :=
  if hb : 0 ≤ i ∧ i < (h : Int) ∧ 0 ≤ j ∧ j < (w : Int) then
    x ⟨i.toNat, by omega⟩ ⟨j.toNat, by omega⟩ ch
  else 0

/-- Kernel of a 3×3 convolution with `cin` input and `cout` output
channels. -/
structure Conv3x3 (cin cout : Nat) where
  w : Fin 3 → Fin 3 → Fin cin → Fin cout → ℝ

/-- Semantics of `Conv2D(kernel_size=(3, 3), padding="same", use_bias=False)` before its
activation: each output pixel is the kernel-weighted sum of the 3×3
neighbourhood, reading 0 outside the image. -/
noncomputable def conv3x3Same {h w cin cout : Nat} (W : Conv3x3 cin cout)
    (x : Img h w cin) : Img h w cout :=
  fun i j k =>
    ∑ di : Fin 3, ∑ dj : Fin 3, ∑ c : Fin cin,
      W.w di dj c k * padGet x ((i : Int) + (di : Int) - 1) ((j : Int) + (dj : Int) - 1) c

/-- Pointwise application of an activation to an image tensor. -/
noncomputable def mapImg {h w c : Nat} (f : ℝ → ℝ) (x : Img h w c) :
    Img h w c :=
  fun i j k => f (x i j k)

/-- Learned parameters of `token_learner` for `C`-channel grids and `K`
summary tokens: the LayerNormalization scale and shift, and the four conv
kernels of the attention stack (each with `number_of_tokens` filters). -/
structure TLWeights (C K : Nat) where
  lnGamma : Fin C → ℝ
  lnBeta : Fin C → ℝ
  conv1 : Conv3x3 C K
  conv2 : Conv3x3 K K
  conv3 : Conv3x3 K K
  conv4 : Conv3x3 K K

/-- The `keras.Sequential` inside `token_learner`: three 3×3 same-padding
convs with GELU activation, then a final 3×3 same-padding conv with sigmoid
activation producing the `K` attention maps. -/
noncomputable def tlConvStack {h w C K : Nat} (W : TLWeights C K)
    (x : Img h w C) : Img h w K :=
  mapImg sigmoid (conv3x3Same W.conv4
    (mapImg gelu (conv3x3Same W.conv3
      (mapImg gelu (conv3x3Same W.conv2
        (mapImg gelu (conv3x3Same W.conv1 x)))))))

/-- Attention-map set of `token_learner`: the conv stack applied to the
layer-normalized copy of the input grid, giving shape (B, h, w, K). -/
noncomputable def tokenLearnerAttnMaps {B h w C K : Nat} (W : TLWeights C K)
    (inputs : Fin B → Img h w C) : Fin B → Img h w K :=
  fun b => tlConvStack W (layerNormImg W.lnGamma W.lnBeta (inputs b))

/-- Row index of flat spatial position `p` under the row-major
`Reshape((-1, K))` flattening of an `h × w` grid. -/
def rowOf {h w : Nat} (p : Fin (h * w)) : Fin h :=
  ⟨p.val / w, by
    have hp := p.isLt
    rcases Nat.eq_zero_or_pos w with hw | hw
    · subst hw; omega
    · exact (Nat.div_lt_iff_lt_mul hw).mpr hp⟩

/-- Column index of flat spatial position `p` under the row-major
flattening of an `h × w` grid. -/
def colOf {h w : Nat} (p : Fin (h * w)) : Fin w :=
  ⟨p.val % w, by
    have hp := p.isLt
    rcases Nat.eq_zero_or_pos w with hw | hw
    · subst hw; omega
    · exact Nat.mod_lt _ hw⟩

/-- Semantics of `Reshape((-1, number_of_tokens))` followed by `Permute((2, 1))` applied to
the attention maps: shape (B, K, h·w), entry `[b, k, p] = A[b, p / w, p % w, k]`. -/
noncomputable def tokenLearnerMapsFlat {B h w C K : Nat} (W : TLWeights C K)
    (inputs : Fin B → Img h w C) :
    Fin B → Fin K → Fin (h * w) → ℝ :=
  fun b k p => tokenLearnerAttnMaps W inputs b (rowOf p) (colOf p) k

/-- Semantics of `Reshape((1, -1, num_filters))` applied to the original (pre-
normalization) inputs: shape (B, 1, h·w, C); the singleton axis broadcasts
against the `K` axis of the attention maps. -/
noncomputable def tokenLearnerInputsFlat {B h w C : Nat}
    (inputs : Fin B → Img h w C) : Fin B → Fin (h * w) → Fin C → ℝ :=
  fun b p c => inputs b (rowOf p) (colOf p) c

/-- Semantics of `token_learner(inputs, number_of_tokens)`: the attention maps (computed
from the layer-normalized copy) are elementwise-multiplied, with broadcast,
against the reshaped original inputs, and the product is reduced by
`tf.reduce_mean` over the flattened spatial axis, giving shape (B, K, C). -/
noncomputable def token_learner {B h w C K : Nat} (W : TLWeights C K)
    (inputs : Fin B → Img h w C) : Fin B → Fin K → Fin C → ℝ :=
  fun b k c =>
    (∑ p : Fin (h * w),
        tokenLearnerMapsFlat W inputs b k p * tokenLearnerInputsFlat inputs b p c)
      / (h * w : ℝ)

/-- Foil definition, not present in the source: the variant of
`token_learner` that would weight the layer-normalized copy of the grid
instead of the original values.  It exists only to witness that the source's
reduction differs from it. -/
noncomputable def tokenLearnerNormedOperand {B h w C K : Nat}
    (W : TLWeights C K) (inputs : Fin B → Img h w C) :
    Fin B → Fin K → Fin C → ℝ :=
  fun b k c =>
    (∑ p : Fin (h * w),
        tokenLearnerMapsFlat W inputs b k p *
          tokenLearnerInputsFlat
            (fun b2 => layerNormImg W.lnGamma W.lnBeta (inputs b2)) b p c)
      / (h * w : ℝ)

/-! ## Multi-head self-attention and the transformer block

Semantics of `layers.MultiHeadAttention(num_heads=NUM_HEADS,
key_dim=PROJECTION_DIM, dropout=0.1)(x1, x1)`: per head, learned query, key
and value projections of width `key_dim` (the value width defaults to
`key_dim`), scaled dot-product scores, softmax over the key axis, dropout on
the attention probabilities in training mode, and a final learned projection
back to the query width. -/

/-- Learned parameters of one `MultiHeadAttention` layer with embedding width
`D`, per-head width `kd` and `nh` heads. -/
structure MHAWeights (D kd nh : Nat) where
  wq : Fin nh → Fin D → Fin kd → ℝ
  bq : Fin nh → Fin kd → ℝ
  wk : Fin nh → Fin D → Fin kd → ℝ
  bk : Fin nh → Fin kd → ℝ
  wv : Fin nh → Fin D → Fin kd → ℝ
  bv : Fin nh → Fin kd → ℝ
  wo : Fin nh → Fin kd → Fin D → ℝ
  bo : Fin D → ℝ

/-- Linear token-wise projection `x W + b`. -/
noncomputable def proj {n D kd : Nat} (w : Fin D → Fin kd → ℝ)
    (b : Fin kd → ℝ) (x : Mat n D) : Mat n kd :=
  fun i t => (∑ d, x i d * w d t) + b t

/-- Scaled dot-product attention score of head `hd` between query token `i`
and key token `j` (query and key both projected from `x`; scaling by
`1 / sqrt key_dim`). -/
noncomputable def mhaScores {n D kd nh : Nat} (W : MHAWeights D kd nh)
    (x : Mat n D) (hd : Fin nh) (i j : Fin n) : ℝ :=
  (∑ t, proj (W.wq hd) (W.bq hd) x i t * proj (W.wk hd) (W.bk hd) x j t)
    / Real.sqrt (kd : ℝ)

/-- Attention probabilities of head `hd` for query token `i`: softmax of the
scores over the key axis, so every token attends to every token. -/
noncomputable def mhaProbs {n D kd nh : Nat} (W : MHAWeights D kd nh)
    (x : Mat n D) (hd : Fin nh) (i : Fin n) : Fin n → ℝ :=
  softmax (fun j => mhaScores W x hd i j)

/-- Inverted dropout on a two-axis tensor: in training mode, entries with
`keep = false` are zeroed and the rest are scaled by `1 / (1 - rate)`; in
inference mode the tensor passes through unchanged. -/
noncomputable def dropout2 {n d : Nat} (rate : ℝ) (training : Bool)
    (keep : Fin n → Fin d → Bool) (x : Mat n d) : Mat n d :=
  if training then
    (fun i j => if keep i j then x i j / (1 - rate) else 0)
  else x

/-- Dropout on the attention probabilities of one head (three axes: head,
query token, key token). -/
noncomputable def mhaProbsDropped {n D kd nh : Nat} (W : MHAWeights D kd nh)
    (x : Mat n D) (rate : ℝ) (training : Bool)
    (keep : Fin nh → Fin n → Fin n → Bool) (hd : Fin nh) (i : Fin n) :
    Fin n → ℝ :=
  if training then
    (fun j => if keep hd i j then mhaProbs W x hd i j / (1 - rate) else 0)
  else mhaProbs W x hd i

/-- Full `MultiHeadAttention` output in self-attention use `(x, x)`: per-head
probability-weighted sums of the value projections, concatenated over heads
through the output projection back to width `D`. -/
noncomputable def mha {n D kd nh : Nat} (W : MHAWeights D kd nh) (rate : ℝ)
    (training : Bool) (keep : Fin nh → Fin n → Fin n → Bool) (x : Mat n D) :
    Mat n D :=
  fun i d =>
    (∑ hd, ∑ t,
        (∑ j, mhaProbsDropped W x rate training keep hd i j *
            proj (W.wv hd) (W.bv hd) x j t) * W.wo hd t d)
      + W.bo d

/-- Learned parameters of one `transformer` block at the notebook's fixed
widths: two layer norms, the attention layer (note `key_dim =
TRANSFORMER_KEY_DIM = PROJECTION_DIM`), and the two GELU dense layers of
`mlp` with widths `MLP_UNITS = [2 * PROJECTION_DIM, PROJECTION_DIM]`. -/
structure BlockWeights where
  ln1Gamma : Fin PROJECTION_DIM → ℝ
  ln1Beta : Fin PROJECTION_DIM → ℝ
  attn : MHAWeights PROJECTION_DIM TRANSFORMER_KEY_DIM NUM_HEADS
  ln2Gamma : Fin PROJECTION_DIM → ℝ
  ln2Beta : Fin PROJECTION_DIM → ℝ
  d1w : Fin PROJECTION_DIM → Fin (PROJECTION_DIM * 2) → ℝ
  d1b : Fin (PROJECTION_DIM * 2) → ℝ
  d2w : Fin (PROJECTION_DIM * 2) → Fin PROJECTION_DIM → ℝ
  d2b : Fin PROJECTION_DIM → ℝ

/-- Dropout masks consumed by one transformer block on an `n`-token
sequence. -/
structure BlockNoise (n : Nat) where
  attnKeep : Fin NUM_HEADS → Fin n → Fin n → Bool
  mlpKeep1 : Fin n → Fin (PROJECTION_DIM * 2) → Bool
  mlpKeep2 : Fin n → Fin PROJECTION_DIM → Bool

/-- Value semantics of `transformer(encoded_patches)` on one batch element:
pre-norm multi-head self-attention with residual, then pre-norm two-layer
GELU `mlp` (each dense followed by dropout) with residual.  The `mlp` loop
over `MLP_UNITS = [2 * PROJECTION_DIM, PROJECTION_DIM]` is unrolled. -/
noncomputable def transformerV {n : Nat} (W : BlockWeights) (training : Bool)
    (ns : BlockNoise n) (x : Mat n PROJECTION_DIM) : Mat n PROJECTION_DIM :=
  let x1 := layerNormSeq W.ln1Gamma W.ln1Beta x
  let attnOut := mha W.attn DROPOUT_RATE training ns.attnKeep x1
  let x2 : Mat n PROJECTION_DIM := fun i d => attnOut i d + x i d
  let x3 := layerNormSeq W.ln2Gamma W.ln2Beta x2
  let h1 := dropout2 DROPOUT_RATE training ns.mlpKeep1
    (fun i u => gelu ((∑ d, x3 i d * W.d1w d u) + W.d1b u))
  let x4 := dropout2 DROPOUT_RATE training ns.mlpKeep2
    (fun i u => gelu ((∑ t, h1 i t * W.d2w t u) + W.d2b u))
  fun i d => x4 i d + x2 i d

/-! ## Full forward pass of `create_vit_classifier`

All randomness the program consumes (crop offset, flip coin, dropout masks)
is passed in explicitly as a `VitNoise` value; each stochastic layer reads it
only in training mode, matching the Keras semantics of preprocessing and
dropout layers under `training=False`.  The static four-iteration block loop
of the source, with its insertion conditional `i == NUM_LAYERS // 2`, is
unrolled. -/

/-- Patches per image side: IMAGE_SIZE // PATCH_SIZE = 8. -/
abbrev PATCHES_SIDE : Nat := IMAGE_SIZE / PATCH_SIZE

/-- Clamping of an integer coordinate into `[0, n)`, as done by the bilinear
resize kernel at image borders. -/
def clampIdx {n : Nat} (hn : 0 < n) (z : Int) : Fin n :=
  if z < 0 then ⟨0, hn⟩
  else if h2 : (n : Int) ≤ z then ⟨n - 1, by omega⟩
  else ⟨z.toNat, by omega⟩

/-- Bilinear image resize with half-pixel centers (the semantics of
`layers.Resizing` / `tf.image.resize` with the default bilinear method). -/
noncomputable def resizeBilinear (hIn wIn hOut wOut : Nat) {c : Nat}
    (hi : 0 < hIn) (wi : 0 < wIn) (x : Img hIn wIn c) : Img hOut wOut c :=
  fun i j ch =>
    let sy : ℝ := ((i.val : ℝ) + 1 / 2) * ((hIn : ℝ) / (hOut : ℝ)) - 1 / 2
    let sx : ℝ := ((j.val : ℝ) + 1 / 2) * ((wIn : ℝ) / (wOut : ℝ)) - 1 / 2
    let y0 : Int := Int.floor sy
    let x0 : Int := Int.floor sx
    let ty : ℝ := sy - (y0 : ℝ)
    let tx : ℝ := sx - (x0 : ℝ)
    (1 - ty) * ((1 - tx) * x (clampIdx hi y0) (clampIdx wi x0) ch
        + tx * x (clampIdx hi y0) (clampIdx wi (x0 + 1)) ch)
      + ty * ((1 - tx) * x (clampIdx hi (y0 + 1)) (clampIdx wi x0) ch
        + tx * x (clampIdx hi (y0 + 1)) (clampIdx wi (x0 + 1)) ch)

/-- Semantics of `layers.RandomCrop(IMAGE_SIZE, IMAGE_SIZE)` on a 52×52 input: in training
mode, a crop window at a random offset (the spare margin is 52 − 48 = 4, so
the offset is taken mod 5); in inference mode the layer is deterministic,
resizing the central region to the target size (for a square input this is
the bilinear resize to 48×48). -/
noncomputable def randomCropV (training : Bool) (off : Nat × Nat)
    (x : Img (INPUT_SIZE + 20) (INPUT_SIZE + 20) INPUT_CHANNELS) :
    Img IMAGE_SIZE IMAGE_SIZE INPUT_CHANNELS :=
  if training then
    fun i j ch =>
      x ⟨i.val + off.1 % 5, by
            have h1 : i.val < 48 := i.isLt
            have h2 : off.1 % 5 < 5 := Nat.mod_lt _ (by norm_num)
            show i.val + off.1 % 5 < 52
            omega⟩
        ⟨j.val + off.2 % 5, by
            have h1 : j.val < 48 := j.isLt
            have h2 : off.2 % 5 < 5 := Nat.mod_lt _ (by norm_num)
            show j.val + off.2 % 5 < 52
            omega⟩
        ch
  else
    resizeBilinear (INPUT_SIZE + 20) (INPUT_SIZE + 20) IMAGE_SIZE IMAGE_SIZE
      (by norm_num) (by norm_num) x

/-- Semantics of `layers.RandomFlip("horizontal")`: in training mode a coin decides
whether the image is mirrored; in inference mode the layer is the
identity. -/
noncomputable def randomFlipV (training : Bool) (flip : Bool)
    (x : Img IMAGE_SIZE IMAGE_SIZE INPUT_CHANNELS) :
    Img IMAGE_SIZE IMAGE_SIZE INPUT_CHANNELS :=
  if training then
    if flip then
      (fun i j ch =>
        x i ⟨IMAGE_SIZE - 1 - j.val, by
              have h1 : j.val < 48 := j.isLt
              show 48 - 1 - j.val < 48
              omega⟩ ch)
    else x
  else x

/-- Learned parameters of the patch-projection `Conv2D` (kernel and stride
both PATCH_SIZE, `padding="VALID"`, PROJECTION_DIM filters). -/
structure PatchWeights where
  w : Fin PATCH_SIZE → Fin PATCH_SIZE → Fin INPUT_CHANNELS → Fin PROJECTION_DIM → ℝ
  b : Fin PROJECTION_DIM → ℝ

/-- The strided valid patch convolution: each output position is one
non-overlapping PATCH_SIZE × PATCH_SIZE patch, linearly projected. -/
noncomputable def patchProject (W : PatchWeights)
    (x : Img IMAGE_SIZE IMAGE_SIZE INPUT_CHANNELS) :
    Img PATCHES_SIDE PATCHES_SIDE PROJECTION_DIM :=
  fun i j d =>
    (∑ di : Fin PATCH_SIZE, ∑ dj : Fin PATCH_SIZE, ∑ c : Fin INPUT_CHANNELS,
        W.w di dj c d *
          x ⟨PATCH_SIZE * i.val + di.val, by
                have h1 : i.val < 8 := i.isLt
                have h2 : di.val < 6 := di.isLt
                show 6 * i.val + di.val < 48
                omega⟩
            ⟨PATCH_SIZE * j.val + dj.val, by
                have h1 : j.val < 8 := j.isLt
                have h2 : dj.val < 6 := dj.isLt
                show 6 * j.val + dj.val < 48
                omega⟩
            c)
      + W.b d

/-- Semantics of `Reshape((h * w, projection_dim))` of the projected patch grid, row
major. -/
noncomputable def flattenPatches
    (g : Img PATCHES_SIDE PATCHES_SIDE PROJECTION_DIM) :
    Mat NUM_PATCHES PROJECTION_DIM :=
  fun p d =>
    g ⟨p.val / PATCHES_SIDE, by
          have hp : p.val < 64 := p.isLt
          show p.val / 8 < 8
          omega⟩
      ⟨p.val % PATCHES_SIDE, by
          show p.val % 8 < 8
          omega⟩
      d

/-- Semantics of `position_embedding(projected_patches)`: a learned table indexed by
position `0 .. num_patches − 1`, added to every token (shared across the
batch). -/
noncomputable def position_embedding
    (posTable : Fin NUM_PATCHES → Fin PROJECTION_DIM → ℝ)
    (projectedPatches : Mat NUM_PATCHES PROJECTION_DIM) :
    Mat NUM_PATCHES PROJECTION_DIM :=
  fun p d => projectedPatches p d + posTable p d

/-- The sequence-to-grid `Reshape((h, h, c))` at the TokenLearner insertion
point, with `h = int(math.sqrt(hh)) = 8`, row major. -/
noncomputable def gridOfSeq (s : Mat NUM_PATCHES PROJECTION_DIM) :
    Img PATCHES_SIDE PATCHES_SIDE PROJECTION_DIM :=
  fun i j d =>
    s ⟨i.val * PATCHES_SIDE + j.val, by
          have h1 : i.val < 8 := i.isLt
          have h2 : j.val < 8 := j.isLt
          show i.val * 8 + j.val < 64
          omega⟩
      d

/-- All learned parameters of the model built by `create_vit_classifier`. -/
structure VitParams where
  patch : PatchWeights
  posTable : Fin NUM_PATCHES → Fin PROJECTION_DIM → ℝ
  blk0 : BlockWeights
  blk1 : BlockWeights
  blk2 : BlockWeights
  blk3 : BlockWeights
  tl : TLWeights PROJECTION_DIM NUM_TOKENS
  lnFGamma : Fin PROJECTION_DIM → ℝ
  lnFBeta : Fin PROJECTION_DIM → ℝ
  headW : Fin PROJECTION_DIM → Fin NUM_CLASSES → ℝ
  headB : Fin NUM_CLASSES → ℝ

/-- All random draws one forward pass on one batch element may consume. -/
structure VitNoise where
  cropOff : Nat × Nat
  flipBit : Bool
  posKeep : Fin NUM_PATCHES → Fin PROJECTION_DIM → Bool
  blk0 : BlockNoise NUM_PATCHES
  blk1 : BlockNoise NUM_PATCHES
  blk2 : BlockNoise NUM_PATCHES
  blk3 : BlockNoise NUM_TOKENS

/-- Forward pass of the built model on one batch element: augmentation,
patch projection and reshape, positional embedding, dropout, four
transformer blocks with the TokenLearner inserted after the block at index
`NUM_LAYERS // 2 = 2`, final layer norm, global average pooling over the
token axis, and the softmax classification head. -/
noncomputable def vitForwardOne (p : VitParams) (training : Bool)
    (ns : VitNoise) (img : Img INPUT_SIZE INPUT_SIZE INPUT_CHANNELS) :
    Fin NUM_CLASSES → ℝ :=
  let rescaled := mapImg (fun v => v / 255) img
  let resized := resizeBilinear INPUT_SIZE INPUT_SIZE (INPUT_SIZE + 20)
    (INPUT_SIZE + 20) (by norm_num) (by norm_num) rescaled
  let cropped := randomCropV training ns.cropOff resized
  let flipped := randomFlipV training ns.flipBit cropped
  let projectedPatches := flattenPatches (patchProject p.patch flipped)
  let encoded0 := position_embedding p.posTable projectedPatches
  let encoded := dropout2 DROPOUT_RATE training ns.posKeep encoded0
  let b0 := transformerV p.blk0 training ns.blk0 encoded
  let b1 := transformerV p.blk1 training ns.blk1 b0
  let b2 := transformerV p.blk2 training ns.blk2 b1
  let reduced : Mat NUM_TOKENS PROJECTION_DIM :=
    fun k c => token_learner p.tl (fun _ : Fin 1 => gridOfSeq b2) 0 k c
  let b3 := transformerV p.blk3 training ns.blk3 reduced
  let rep := layerNormSeq p.lnFGamma p.lnFBeta b3
  let pooled : Fin PROJECTION_DIM → ℝ :=
    fun d => (∑ i, rep i d) / (NUM_TOKENS : ℝ)
  softmax (fun cl => (∑ d, pooled d * p.headW d cl) + p.headB cl)

/-- Batched forward pass: every stage of the program acts pointwise along the
batch axis. -/
noncomputable def vitForward {B : Nat} (p : VitParams) (training : Bool)
    (ns : Fin B → VitNoise)
    (x : Fin B → Img INPUT_SIZE INPUT_SIZE INPUT_CHANNELS) :
    Fin B → Fin NUM_CLASSES → ℝ :=
  fun b => vitForwardOne p training (ns b) (x b)

/-! ## Index bookkeeping for the spatial flattening -/

/-- Row-major equivalence between grid coordinates and flat spatial
positions: `(i, j) ↦ i * w + j`, inverted by `rowOf` and `colOf`. -/
def spatialEquiv (h w : Nat) : Fin h × Fin w ≃ Fin (h * w) where
  toFun q := ⟨q.1.val * w + q.2.val, by
    have h1 := q.1.isLt
    have h2 := q.2.isLt
    calc q.1.val * w + q.2.val < q.1.val * w + w := by omega
      _ = (q.1.val + 1) * w := by ring
      _ ≤ h * w := Nat.mul_le_mul_right w h1⟩
  invFun p := (rowOf p, colOf p)
  left_inv := by
    rintro ⟨i, j⟩
    have hw : 0 < w := by have := j.isLt; omega
    refine Prod.ext (Fin.ext ?_) (Fin.ext ?_)
    · show (i.val * w + j.val) / w = i.val
      rw [Nat.add_comm, Nat.add_mul_div_right _ _ hw, Nat.div_eq_of_lt j.isLt,
        Nat.zero_add]
    · show (i.val * w + j.val) % w = j.val
      rw [Nat.add_comm, Nat.add_mul_mod_self_right, Nat.mod_eq_of_lt j.isLt]
  right_inv := by
    intro p
    have hw : 0 < w := by
      have := p.isLt
      rcases Nat.eq_zero_or_pos w with hw0 | hw0
      · subst hw0; omega
      · exact hw0
    refine Fin.ext ?_
    show p.val / w * w + p.val % w = p.val
    rw [Nat.mul_comm]
    exact Nat.div_add_mod p.val w

/-! ## Concrete instances used by witnesses and counterexamples -/

/-- TokenLearner weights for a 1-channel, 1-token configuration with every
learned parameter equal to 0 (gamma = beta = 0, all conv kernels 0). -/
noncomputable def tlW0 : TLWeights 1 1 where
  lnGamma := fun _ => 0
  lnBeta := fun _ => 0
  conv1 := ⟨fun _ _ _ _ => 0⟩
  conv2 := ⟨fun _ _ _ _ => 0⟩
  conv3 := ⟨fun _ _ _ _ => 0⟩
  conv4 := ⟨fun _ _ _ _ => 0⟩

/-- A concrete single-element batch holding a 1×1 spatial grid with one
channel of value 2. -/
noncomputable def grid2 : Fin 1 → Img 1 1 1 := fun _ _ _ _ => 2

/-! ## Theorems -/

/-! ### Helper lemmas -/

theorem sigmoid_nonneg (x : ℝ) : 0 ≤ sigmoid x := by
  unfold sigmoid
  positivity

theorem sigmoid_le_one (x : ℝ) : sigmoid x ≤ 1 := by
  unfold sigmoid
  rw [div_le_one (by positivity)]
  have := Real.exp_pos (-x)
  linarith

theorem sigmoid_zero_eq : sigmoid 0 = 1 / 2 := by
  unfold sigmoid
  rw [neg_zero, Real.exp_zero]
  norm_num

/-- Every entry of the attention-map set is the sigmoid of the last conv's
pre-activation. -/
theorem attnMaps_eq_sigmoid {B h w C K : Nat} (W : TLWeights C K)
    (inputs : Fin B → Img h w C) (b : Fin B) (i : Fin h) (j : Fin w)
    (k : Fin K) :
    tokenLearnerAttnMaps W inputs b i j k =
      sigmoid (conv3x3Same W.conv4
        (mapImg gelu (conv3x3Same W.conv3
          (mapImg gelu (conv3x3Same W.conv2
            (mapImg gelu (conv3x3Same W.conv1
              (layerNormImg W.lnGamma W.lnBeta (inputs b)))))))) i j k) := rfl

/-- With all-zero weights, the final conv pre-activation vanishes, so every
attention-map entry is `sigmoid 0`. -/
theorem attnMaps_tlW0 (inputs : Fin 1 → Img 1 1 1) (b i j k : Fin 1) :
    tokenLearnerAttnMaps tlW0 inputs b i j k = sigmoid 0 := by
  rw [attnMaps_eq_sigmoid]
  have h4 : tlW0.conv4 = ⟨fun _ _ _ _ => 0⟩ := rfl
  simp [conv3x3Same, h4]

/-- Reindexing a sum over flat spatial positions as a double sum over grid
coordinates. -/
theorem sum_flat_eq {h w : Nat} (f : Fin h → Fin w → ℝ) :
    (∑ p : Fin (h * w), f (rowOf p) (colOf p)) = ∑ i : Fin h, ∑ j : Fin w, f i j := by
  have hcomp :
      (∑ q : Fin h × Fin w, f (rowOf (spatialEquiv h w q)) (colOf (spatialEquiv h w q)))
        = ∑ p : Fin (h * w), f (rowOf p) (colOf p) :=
    Equiv.sum_comp (spatialEquiv h w) (fun p => f (rowOf p) (colOf p))
  rw [← hcomp]
  have hbody :
      (∑ q : Fin h × Fin w, f (rowOf (spatialEquiv h w q)) (colOf (spatialEquiv h w q)))
        = ∑ q : Fin h × Fin w, f q.1 q.2 := by
    refine Finset.sum_congr rfl ?_
    intro q _
    have hq := (spatialEquiv h w).left_inv q
    have h1 : rowOf (spatialEquiv h w q) = q.1 := congrArg Prod.fst hq
    have h2 : colOf (spatialEquiv h w q) = q.2 := congrArg Prod.snd hq
    rw [h1, h2]
  rw [hbody]
  exact Fintype.sum_prod_type (f := fun q : Fin h × Fin w => f q.1 q.2)

/-- The transformer block's static shape is preserved at the configured
embedding width. -/
theorem transformerShape_proj (n : Nat) :
    transformerShape (n, PROJECTION_DIM) = some (n, PROJECTION_DIM) := by
  simp [transformerShape, lnShape, mhaShape, mlpShape, addShape, bcastDim]

/-- Unfolded value of the insertion index. -/
theorem numLayersHalf : NUM_LAYERS / 2 = 2 := rfl

theorem isqrtAux_sq_le (n : Nat) : ∀ m : Nat, isqrtAux n m * isqrtAux n m ≤ n := by
  intro m
  induction m with
  | zero => simp [isqrtAux]
  | succ k ih =>
    unfold isqrtAux
    split
    · assumption
    · exact ih

theorem le_isqrtAux (n : Nat) :
    ∀ m j : Nat, j ≤ m → j * j ≤ n → j ≤ isqrtAux n m := by
  intro m
  induction m with
  | zero => intro j hj _; omega
  | succ k ih =>
    intro j hj hjj
    unfold isqrtAux
    split
    · exact hj
    · rcases Nat.lt_or_ge j (k + 1) with hlt | hge
      · exact ih j (by omega) hjj
      · exfalso
        have hj1 : j = k + 1 := by omega
        subst hj1
        omega

/-- The structural integer square root agrees with `Nat.sqrt`, hence with the
mathematical floor square root computed by `int(math.sqrt(hh))`. -/
theorem intSqrt_eq_sqrt (n : Nat) : intSqrt n = Nat.sqrt n := by
  refine Nat.le_antisymm ?_ ?_
  · exact Nat.le_sqrt.mpr (isqrtAux_sq_le n n)
  · exact le_isqrtAux n n (Nat.sqrt n) (Nat.sqrt_le_self n) (Nat.sqrt_le n)

/-! ### C5 — patch encoder on non-divisible sizes -/

/-- C5 counterexample: the claim says a non-divisible image size fails with a
configuration error and never silently produces a token sequence; but at
H = W = 49 with patch size 6 (49 is not divisible by 6) the patch stage
builds successfully and silently produces a 64-token sequence. -/
theorem claim_C5_cex :
    ¬ (PATCH_SIZE ∣ 49) ∧
      patchStage 49 49 PATCH_SIZE PROJECTION_DIM = some (64, PROJECTION_DIM) := by
  constructor
  · decide
  · decide

/-- C5 amended: whenever the patch kernel fits (P ≤ H and P ≤ W, P > 0) the
patch stage builds without error — also when H or W is not divisible by P —
and silently produces ⌊H/P⌋·⌊W/P⌋ tokens, the valid strided convolution
dropping any partial window at the edge; no divisibility check exists. -/
theorem claim_C5 (H W P D : Nat) (hp : 0 < P) (hH : P ≤ H) (hW : P ≤ W) :
    patchStage H W P D = some ((H / P) * (W / P), D) := by
  have e1 : ∀ n, P ≤ n → (n - P) / P + 1 = n / P := by
    intro n hn
    have hsub : n - P + P = n := Nat.sub_add_cancel hn
    calc (n - P) / P + 1 = (n - P + P) / P := (Nat.add_div_right _ hp).symm
      _ = n / P := by rw [hsub]
  unfold patchStage convValidDim
  rw [if_pos ⟨hp, hH⟩, if_pos ⟨hp, hW⟩]
  simp [e1 H hH, e1 W hW]

/-- C5 witness: the amended statement applied at the concrete non-divisible
size H = W = 49, P = 6. -/
theorem claim_C5_witness :
    0 < 6 ∧ 6 ≤ 49 ∧
      patchStage 49 49 6 PROJECTION_DIM = some ((49 / 6) * (49 / 6), PROJECTION_DIM) :=
  ⟨by decide, by decide, claim_C5 49 49 6 PROJECTION_DIM (by decide) (by decide) (by decide)⟩

/-! ### C6 — token counts across the pipeline -/

/-- Unfolding of the block recursion of the concrete model build. -/
theorem vitAfterBlock_succ (i : Nat) :
    vitAfterBlock (i + 1) = (vitAfterBlock i).bind (blockStep true NUM_TOKENS (i + 1)) := by
  simp only [vitAfterBlock, afterBlock]
  rw [Option.bind_assoc]

/-- C6: across the full forward pass the token count is N = NUM_PATCHES = 64
(width PROJECTION_DIM = 128) before the TokenLearner insertion point at block
index NUM_LAYERS / 2 = 2 and NUM_TOKENS = 4 from that block onward; the final
classifier output has length NUM_CLASSES = 10. -/
theorem claim_C6 :
    (∀ i : Nat, vitAfterBlock i =
        some ((if NUM_LAYERS / 2 ≤ i then NUM_TOKENS else NUM_PATCHES), PROJECTION_DIM))
    ∧ vitSeq0 = some (64, 128)
    ∧ vitAfterBlock 2 = some (4, 128)
    ∧ vitFinalLen = some 10 := by
  refine ⟨?_, by decide, by decide, by decide⟩
  intro i
  induction i with
  | zero => decide
  | succ n ih =>
    rcases n with _ | _ | m
    · decide
    · decide
    · rw [vitAfterBlock_succ, ih]
      have h1 : NUM_LAYERS / 2 ≤ m + 2 := by rw [numLayersHalf]; omega
      have h2 : NUM_LAYERS / 2 ≤ m + 2 + 1 := by rw [numLayersHalf]; omega
      rw [if_pos h1, if_pos h2]
      have hne : ¬ (m + 2 + 1 = NUM_LAYERS / 2) := by rw [numLayersHalf]; omega
      simp [blockStep, transformerShape_proj, hne]

/-! ### C8 — non-square token count at the insertion point -/

/-- C8: when the token count `n` reaching the insertion point is not a
perfect square (the code's check: `int(math.sqrt(n))` squared differs from
`n`), the sequence-to-grid `Reshape` fails its build-time element-count
check, so the model build inside the block loop yields no shape (`none`) from
the insertion block onward: the failure is fatal at model-build time, and no
model exists for a training step to run on. -/
theorem claim_C8 (n K : Nat) (hn : intSqrt n * intSqrt n ≠ n) :
    seqToGridShape n PROJECTION_DIM = none ∧
      ∀ i : Nat, 2 ≤ i → afterBlock true K (n, PROJECTION_DIM) i = none := by
  have hgrid : seqToGridShape n PROJECTION_DIM = none := by
    unfold seqToGridShape
    rw [if_neg]
    intro hc
    exact hn (Nat.eq_of_mul_eq_mul_right (by norm_num) hc)
  refine ⟨hgrid, ?_⟩
  have h0 : afterBlock true K (n, PROJECTION_DIM) 0 = some (n, PROJECTION_DIM) := by
    have hne : ¬ ((0 : Nat) = NUM_LAYERS / 2) := by rw [numLayersHalf]; omega
    simp [afterBlock, blockStep, transformerShape_proj, hne]
  have h1 : afterBlock true K (n, PROJECTION_DIM) 1 = some (n, PROJECTION_DIM) := by
    have hne : ¬ ((1 : Nat) = NUM_LAYERS / 2) := by rw [numLayersHalf]; omega
    simp [afterBlock, h0, blockStep, transformerShape_proj, hne]
  have h2 : afterBlock true K (n, PROJECTION_DIM) 2 = none := by
    simp [afterBlock, h1, blockStep, transformerShape_proj, hgrid, NUM_LAYERS]
  intro i
  induction i with
  | zero => omega
  | succ m ihm =>
    intro hge
    rcases Nat.lt_or_ge m 2 with hm | hm
    · have hm1 : m = 1 := by omega
      subst hm1
      exact h2
    · have hnone := ihm hm
      simp [afterBlock, hnone]

/-- C8 witness: the concrete non-square token count 5 makes the build fail at
the insertion block. -/
theorem claim_C8_witness :
    intSqrt 5 * intSqrt 5 ≠ 5 ∧ afterBlock true 4 (5, PROJECTION_DIM) 3 = none :=
  ⟨by decide, (claim_C8 5 4 (by decide)).2 3 (by decide)⟩

/-! ### C7 — transformer block shape preservation -/

/-- C7 counterexample: the claim quantifies over every input width, but the
block hard-codes its feed-forward output width to PROJECTION_DIM = 128, so on
a sequence of width 64 the second residual `Add` receives the incompatible
shapes (2, 128) and (2, 64) and the build fails instead of returning the
input shape. -/
theorem claim_C7_cex : ¬ (transformerShape (2, 64) = some (2, 64)) := by decide

/-- C7 amended: for every token count `n`, and for inputs whose width equals
the configured embedding width PROJECTION_DIM (the only width the pipeline
ever feeds a block), the transformer block's output shape equals its input
shape — the feed-forward's final `Dense(PROJECTION_DIM)` restores the width —
so blocks can be stacked arbitrarily at that width. -/
theorem claim_C7 (n : Nat) :
    transformerShape (n, PROJECTION_DIM) = some (n, PROJECTION_DIM) :=
  transformerShape_proj n

/-! ### C9 — inference determinism -/

/-- C9: with dropout disabled (`training = false`) and parameters held fixed,
the forward pass of the full pipeline does not read any of the random draws
(crop offsets, flip coins, dropout masks): two calls on the same input batch
under different randomness give syntactically the same computation, so the
inference forward pass is a deterministic function of input and
parameters. -/
theorem claim_C9 {B : Nat} (p : VitParams)
    (x : Fin B → Img INPUT_SIZE INPUT_SIZE INPUT_CHANNELS)
    (n1 n2 : Fin B → VitNoise) :
    vitForward p false n1 x = vitForward p false n2 x := rfl

/-! ### Value-level helper lemmas for the TokenLearner -/

/-- Every attention-map entry lies in [0, 1]: it is a sigmoid output. -/
theorem attnMaps_mem_unit {B h w C K : Nat} (W : TLWeights C K)
    (x : Fin B → Img h w C) (b : Fin B) (i : Fin h) (j : Fin w) (k : Fin K) :
    0 ≤ tokenLearnerAttnMaps W x b i j k ∧ tokenLearnerAttnMaps W x b i j k ≤ 1 := by
  rw [attnMaps_eq_sigmoid]
  exact ⟨sigmoid_nonneg _, sigmoid_le_one _⟩

/-- With all-zero parameters the layer-normalized grid is identically 0. -/
theorem layerNormImg_tlW0 (x : Img 1 1 1) :
    layerNormImg tlW0.lnGamma tlW0.lnBeta x = fun _ _ _ => 0 := by
  funext i j c
  simp [layerNormImg, layerNormVec, tlW0]

/-- With all-zero parameters every flattened attention-map entry is 1/2. -/
theorem mapsFlat_tlW0 (x : Fin 1 → Img 1 1 1) (b k : Fin 1) (p : Fin (1 * 1)) :
    tokenLearnerMapsFlat tlW0 x b k p = 1 / 2 := by
  show tokenLearnerAttnMaps tlW0 x b (rowOf p) (colOf p) k = 1 / 2
  rw [attnMaps_tlW0, sigmoid_zero_eq]

/-- Concrete evaluation: on the 1×1 grid of value 2 with zero weights, the
summary token is (1/2 · 2) / 1 = 1. -/
theorem token_learner_tlW0_eval (b k c : Fin 1) :
    token_learner tlW0 grid2 b k c = 1 := by
  have hbody : ∀ p : Fin (1 * 1),
      tokenLearnerMapsFlat tlW0 grid2 b k p * tokenLearnerInputsFlat grid2 b p c
        = 1 / 2 * 2 := by
    intro p
    rw [mapsFlat_tlW0]
    rfl
  unfold token_learner
  rw [Finset.sum_congr rfl (fun p _ => hbody p)]
  rw [Finset.sum_const, Finset.card_univ, Fintype.card_fin, nsmul_eq_mul]
  norm_num

/-- Concrete evaluation of the foil: weighting the normalized (identically 0)
grid would give 0 instead. -/
theorem tokenLearnerNormedOperand_tlW0_eval (b k c : Fin 1) :
    tokenLearnerNormedOperand tlW0 grid2 b k c = 0 := by
  have hbody : ∀ p : Fin (1 * 1),
      tokenLearnerMapsFlat tlW0 grid2 b k p *
          tokenLearnerInputsFlat
            (fun b2 => layerNormImg tlW0.lnGamma tlW0.lnBeta (grid2 b2)) b p c
        = 0 := by
    intro p
    have hz : tokenLearnerInputsFlat
        (fun b2 => layerNormImg tlW0.lnGamma tlW0.lnBeta (grid2 b2)) b p c = 0 := by
      show layerNormImg tlW0.lnGamma tlW0.lnBeta (grid2 b) (rowOf p) (colOf p) c = 0
      rw [layerNormImg_tlW0]
    rw [hz, mul_zero]
  unfold tokenLearnerNormedOperand
  rw [Finset.sum_congr rfl (fun p _ => hbody p)]
  simp

/-! ### C1 — the reduction formula of the TokenReducer -/

/-- C1: for every grid input and configuration, each entry of the
TokenReducer output is the spatial mean of attention-weighted grid values:
`output[b,k,d] = (1/(h·w)) · Σ_{i,j} A[b,i,j,k] · grid[b,i,j,d]`, with `A`
the attention-map set computed from the input and used as is (no
normalization over the spatial axis before the multiply). -/
theorem claim_C1 {B h w C K : Nat} (W : TLWeights C K)
    (inputs : Fin B → Img h w C) (b : Fin B) (k : Fin K) (d : Fin C)
    (hw : 0 < h * w) :
    token_learner W inputs b k d =
      (1 / ((h * w : Nat) : ℝ)) *
        ∑ i : Fin h, ∑ j : Fin w,
          tokenLearnerAttnMaps W inputs b i j k * inputs b i j d := by
  have hsum :
      (∑ p : Fin (h * w),
          tokenLearnerMapsFlat W inputs b k p * tokenLearnerInputsFlat inputs b p d)
        = ∑ i : Fin h, ∑ j : Fin w,
            tokenLearnerAttnMaps W inputs b i j k * inputs b i j d :=
    sum_flat_eq (fun i j => tokenLearnerAttnMaps W inputs b i j k * inputs b i j d)
  unfold token_learner
  rw [hsum]
  push_cast
  ring

/-- C1 witness: the formula at the concrete 1×1 grid with zero weights. -/
theorem claim_C1_witness :
    0 < 1 * 1 ∧
      token_learner tlW0 grid2 0 0 0 =
        (1 / ((1 * 1 : Nat) : ℝ)) *
          ∑ i : Fin 1, ∑ j : Fin 1,
            tokenLearnerAttnMaps tlW0 grid2 0 i j 0 * grid2 0 i j 0 :=
  ⟨by decide, claim_C1 tlW0 grid2 0 0 0 (by decide)⟩

/-! ### C2 — the weighted operand is the pre-normalization grid -/

/-- C2: (i) the attention maps depend on the input only through its
layer-normalized copy; (ii) the reduction multiplies the attention maps with
the original, pre-normalization grid values, never the normalized ones; and
(iii) the distinction is real: on a concrete input the source reduction
differs from the foil that weights the normalized copy. -/
theorem claim_C2 :
    (∀ (B h w C K : Nat) (W : TLWeights C K) (x y : Fin B → Img h w C),
        (∀ b, layerNormImg W.lnGamma W.lnBeta (x b)
            = layerNormImg W.lnGamma W.lnBeta (y b)) →
        tokenLearnerAttnMaps W x = tokenLearnerAttnMaps W y)
    ∧ (∀ (B h w C K : Nat) (W : TLWeights C K) (x : Fin B → Img h w C)
        (b : Fin B) (k : Fin K) (c : Fin C),
        token_learner W x b k c =
          (∑ p : Fin (h * w),
              tokenLearnerMapsFlat W x b k p * x b (rowOf p) (colOf p) c)
            / (h * w : ℝ))
    ∧ token_learner tlW0 grid2 ≠ tokenLearnerNormedOperand tlW0 grid2 := by
  refine ⟨?_, ?_, ?_⟩
  · intro B h w C K W x y hxy
    funext b
    exact congrArg (tlConvStack W) (hxy b)
  · intro B h w C K W x b k c
    rfl
  · intro heq
    have h1 := congrFun (congrFun (congrFun heq 0) 0) 0
    rw [token_learner_tlW0_eval, tokenLearnerNormedOperand_tlW0_eval] at h1
    norm_num at h1

/-- C2 witness: part (i) applied at a concrete pair of inputs with equal
normalized copies. -/
theorem claim_C2_witness :
    tokenLearnerAttnMaps tlW0 grid2 = tokenLearnerAttnMaps tlW0 grid2 :=
  claim_C2.1 1 1 1 1 1 tlW0 grid2 grid2 (fun _ => rfl)

/-! ### C3 — attention-map values lie in [0, 1]; no sum-to-1 constraint -/

/-- C3: every entry of the attention-map set produced inside the TokenReducer
lies in the closed interval [0, 1] (the final conv's sigmoid saturates), and
no constraint forces a map to sum to 1 over the spatial positions: on a
concrete input (1×1 grid, zero weights) the spatial sum of a map is 1/2. -/
theorem claim_C3 :
    (∀ (B h w C K : Nat) (W : TLWeights C K) (x : Fin B → Img h w C)
        (b : Fin B) (i : Fin h) (j : Fin w) (k : Fin K),
        0 ≤ tokenLearnerAttnMaps W x b i j k ∧ tokenLearnerAttnMaps W x b i j k ≤ 1)
    ∧ (∑ p : Fin (1 * 1), tokenLearnerMapsFlat tlW0 grid2 0 0 p) ≠ 1 := by
  constructor
  · intro B h w C K W x b i j k
    exact attnMaps_mem_unit W x b i j k
  · rw [Finset.sum_congr rfl (fun p _ => mapsFlat_tlW0 grid2 0 0 p)]
    rw [Finset.sum_const, Finset.card_univ, Fintype.card_fin, nsmul_eq_mul]
    norm_num

/-! ### C4 — attention geometry of the transformer block -/

/-- C4 counterexample: the claim says each head has width D/H (embedding
width divided by head count), but the source passes
`key_dim=PROJECTION_DIM`, so each head's width is the full embedding width:
TRANSFORMER_KEY_DIM = 128 ≠ 32 = PROJECTION_DIM / NUM_HEADS. -/
theorem claim_C4_cex : TRANSFORMER_KEY_DIM ≠ PROJECTION_DIM / NUM_HEADS := by
  decide

/-- C4 amended: the self-attention step does let every token attend to every
token — every softmax attention probability is strictly positive, for any
parameters and input, in particular for the probabilities the transformer
block computes on its layer-normalized input — and it uses NUM_HEADS = 4
heads; but each head has width `key_dim = TRANSFORMER_KEY_DIM =
PROJECTION_DIM` (the full embedding width), not PROJECTION_DIM / NUM_HEADS. -/
theorem claim_C4 :
    (∀ (n D kd nh : Nat) (W : MHAWeights D kd nh) (x : Mat n D)
        (hd : Fin nh) (i j : Fin n), 0 < mhaProbs W x hd i j)
    ∧ (∀ (n : Nat) (Wb : BlockWeights) (x : Mat n PROJECTION_DIM)
        (hd : Fin NUM_HEADS) (i j : Fin n),
        0 < mhaProbs Wb.attn (layerNormSeq Wb.ln1Gamma Wb.ln1Beta x) hd i j)
    ∧ TRANSFORMER_KEY_DIM = PROJECTION_DIM ∧ NUM_HEADS = 4 := by
  have hpos : ∀ (n D kd nh : Nat) (W : MHAWeights D kd nh) (x : Mat n D)
      (hd : Fin nh) (i j : Fin n), 0 < mhaProbs W x hd i j := by
    intro n D kd nh W x hd i j
    unfold mhaProbs softmax
    refine div_pos (Real.exp_pos _) ?_
    exact Finset.sum_pos (fun j2 _ => Real.exp_pos _) ⟨j, Finset.mem_univ j⟩
  exact ⟨hpos, fun n Wb x hd i j => hpos n _ _ _ Wb.attn _ hd i j, rfl, rfl⟩

/-! ### C10 — the reduction never amplifies grid magnitudes -/

/-- C10: because every attention weight lies in [0, 1] and each summary token
is a spatial mean of weight-times-value products, every TokenReducer output
coordinate lies between `min 0 (min_p grid[b,p,d])` and
`max 0 (max_p grid[b,p,d])`; in particular its absolute value is at most
`max_p |grid[b,p,d]|`. -/
theorem claim_C10 {B h w C K : Nat} (W : TLWeights C K)
    (x : Fin B → Img h w C) (b : Fin B) (k : Fin K) (d : Fin C)
    (hne : (Finset.univ : Finset (Fin (h * w))).Nonempty) :
    min 0 (Finset.univ.inf' hne (fun p => x b (rowOf p) (colOf p) d))
        ≤ token_learner W x b k d
      ∧ token_learner W x b k d
        ≤ max 0 (Finset.univ.sup' hne (fun p => x b (rowOf p) (colOf p) d))
      ∧ |token_learner W x b k d|
        ≤ Finset.univ.sup' hne (fun p => |x b (rowOf p) (colOf p) d|) := by
  set g : Fin (h * w) → ℝ := fun p => x b (rowOf p) (colOf p) d with hg
  set A : Fin (h * w) → ℝ := fun p => tokenLearnerMapsFlat W x b k p with hA
  have hAbd : ∀ p, 0 ≤ A p ∧ A p ≤ 1 := fun p =>
    attnMaps_mem_unit W x b (rowOf p) (colOf p) k
  set m : ℝ := min 0 (Finset.univ.inf' hne g) with hm
  set M : ℝ := max 0 (Finset.univ.sup' hne g) with hM
  have key : ∀ p : Fin (h * w), m ≤ A p * g p ∧ A p * g p ≤ M := by
    intro p
    have h1 := (hAbd p).1
    have h2 := (hAbd p).2
    have hgs : Finset.univ.inf' hne g ≤ g p := Finset.inf'_le g (Finset.mem_univ p)
    have hgu : g p ≤ Finset.univ.sup' hne g := Finset.le_sup' g (Finset.mem_univ p)
    rcases le_or_lt 0 (g p) with hgp | hgp
    · constructor
      · calc m ≤ 0 := min_le_left _ _
          _ ≤ A p * g p := mul_nonneg h1 hgp
      · calc A p * g p ≤ g p := mul_le_of_le_one_left hgp h2
          _ ≤ Finset.univ.sup' hne g := hgu
          _ ≤ M := le_max_right _ _
    · constructor
      · have hge : g p ≤ A p * g p := by nlinarith
        calc m ≤ Finset.univ.inf' hne g := min_le_right _ _
          _ ≤ g p := hgs
          _ ≤ A p * g p := hge
      · have hle : A p * g p ≤ 0 := by nlinarith
        calc A p * g p ≤ 0 := hle
          _ ≤ M := le_max_left _ _
  have hcard : (0 : ℝ) < ((h * w : Nat) : ℝ) := by
    obtain ⟨p, _⟩ := hne
    have := p.isLt
    have hpos : 0 < h * w := by omega
    exact_mod_cast hpos
  have htl : token_learner W x b k d = (∑ p, A p * g p) / ((h * w : Nat) : ℝ) := by
    unfold token_learner
    push_cast
    rfl
  have hup : (∑ p, A p * g p) ≤ ((h * w : Nat) : ℝ) * M := by
    calc (∑ p, A p * g p) ≤ ∑ _p : Fin (h * w), M :=
          Finset.sum_le_sum (fun p _ => (key p).2)
      _ = ((h * w : Nat) : ℝ) * M := by
          rw [Finset.sum_const, Finset.card_univ, Fintype.card_fin, nsmul_eq_mul]
  have hlo : ((h * w : Nat) : ℝ) * m ≤ ∑ p, A p * g p := by
    calc ((h * w : Nat) : ℝ) * m = ∑ _p : Fin (h * w), m := by
          rw [Finset.sum_const, Finset.card_univ, Fintype.card_fin, nsmul_eq_mul]
      _ ≤ ∑ p, A p * g p := Finset.sum_le_sum (fun p _ => (key p).1)
  have hout_lo : m ≤ token_learner W x b k d := by
    rw [htl, le_div_iff₀ hcard]
    linarith
  have hout_up : token_learner W x b k d ≤ M := by
    rw [htl, div_le_iff₀ hcard]
    linarith
  refine ⟨hout_lo, hout_up, ?_⟩
  set Mabs : ℝ := Finset.univ.sup' hne (fun p => |g p|) with hMabs
  have hMabs_nonneg : 0 ≤ Mabs := by
    obtain ⟨p, hp⟩ := hne
    calc (0 : ℝ) ≤ |g p| := abs_nonneg _
      _ ≤ Mabs := Finset.le_sup' (fun q => |g q|) (Finset.mem_univ p)
  have hM_le : M ≤ Mabs := by
    refine max_le hMabs_nonneg ?_
    refine Finset.sup'_le hne g (fun p _ => ?_)
    calc g p ≤ |g p| := le_abs_self _
      _ ≤ Mabs := Finset.le_sup' (fun q => |g q|) (Finset.mem_univ p)
  have hm_ge : -Mabs ≤ m := by
    refine le_min (by linarith) ?_
    refine Finset.le_inf' hne g (fun p _ => ?_)
    have h1 : -|g p| ≤ g p := neg_abs_le _
    have h2 : |g p| ≤ Mabs := Finset.le_sup' (fun q => |g q|) (Finset.mem_univ p)
    linarith
  rw [abs_le]
  constructor
  · linarith
  · linarith

/-- C10 witness: the bounds at the concrete 1×1 grid of value 2 with zero
weights. -/
theorem claim_C10_witness :
    min 0 (Finset.univ.inf' (by decide)
          (fun p : Fin (1 * 1) => grid2 0 (rowOf p) (colOf p) 0))
        ≤ token_learner tlW0 grid2 0 0 0
      ∧ token_learner tlW0 grid2 0 0 0
        ≤ max 0 (Finset.univ.sup' (by decide)
            (fun p : Fin (1 * 1) => grid2 0 (rowOf p) (colOf p) 0))
      ∧ |token_learner tlW0 grid2 0 0 0|
        ≤ Finset.univ.sup' (by decide)
            (fun p : Fin (1 * 1) => |grid2 0 (rowOf p) (colOf p) 0|) :=
  claim_C10 tlW0 grid2 0 0 0 (by decide)
